import Mathlib

set_option maxRecDepth 10000

/-!
Shallow embedding of `src/script.rs` from the `redis-rs` repository:
script identity and hashing (`Script`), the key/argument invocation
builder (`ScriptInvocation`), the blocking retry executor
(`ScriptInvocation::invoke`) and the non-blocking state machine
(`InvokeAsyncFuture::poll` over `ScriptStatus`).

Machine bytes are `Nat`s below 256, 32-bit words are `Nat`s reduced
modulo `2 ^ 32`.  The external collaborators (wire encoding, the
connection, value decoding) are modelled by their contracts from the
spec: a command is a name plus an ordered list of byte-strings, and a
connection is an oracle mapping the history of issued commands and the
current command to a decoded value or a classified error.
-/

/-- A byte-string: the contract's ordered sequence of bytes. -/
abbrev ByteStr := List Nat

/-- Reduce a natural number to a 32-bit word. -/
def w32 (n : Nat) : Nat := n % 4294967296

/-- Left-rotation of a 32-bit word by `s` places. -/
def rotl (s n : Nat) : Nat := Nat.lor (w32 (n <<< s)) (n >>> (32 - s))

/-- SHA-1 round function `f` for round `i`. -/
def sha1F (i b c d : Nat) : Nat :=
  if i < 20 then Nat.lor (Nat.land b c) (Nat.land (Nat.xor b 4294967295) d)
  else if i < 40 then Nat.xor (Nat.xor b c) d
  else if i < 60 then Nat.lor (Nat.lor (Nat.land b c) (Nat.land b d)) (Nat.land c d)
  else Nat.xor (Nat.xor b c) d

/-- SHA-1 round constant `k` for round `i`. -/
def sha1K (i : Nat) : Nat :=
  if i < 20 then 0x5A827999
  else if i < 40 then 0x6ED9EBA1
  else if i < 60 then 0x8F1BBCDC
  else 0xCA62C1D6

/-- The five 32-bit words of SHA-1 internal state. -/
structure Sha1State where
  h0 : Nat
  h1 : Nat
  h2 : Nat
  h3 : Nat
  h4 : Nat
deriving DecidableEq

/-- SHA-1 initial state. -/
def sha1Init : Sha1State :=
  ⟨0x67452301, 0xEFCDAB89, 0x98BADCFE, 0x10325476, 0xC3D2E1F0⟩

/-- Big-endian 32-bit words from a list of bytes. -/
def bytesToWords : List Nat → List Nat
  | b0 :: b1 :: b2 :: b3 :: rest =>
      (b0 * 16777216 + b1 * 65536 + b2 * 256 + b3) :: bytesToWords rest
  | _ => []

/-- Message-schedule extension, keeping the words most-recent-first:
`k` extension steps, each prepending
`rotl 1 (w3 xor w8 xor w14 xor w16)` over the existing words. -/
def extendWords (rws : List Nat) : Nat → List Nat
  | 0 => rws
  | k + 1 =>
      let r := extendWords rws k
      rotl 1 (Nat.xor (Nat.xor (r.getD 2 0) (r.getD 7 0))
        (Nat.xor (r.getD 13 0) (r.getD 15 0))) :: r

/-- One SHA-1 compression round: state `(a, b, c, d, e)`, input `(i, w)`. -/
def sha1Round (st : Nat × Nat × Nat × Nat × Nat) (iw : Nat × Nat) :
    Nat × Nat × Nat × Nat × Nat :=
  let (a, b, c, d, e) := st
  let (i, w) := iw
  (w32 (rotl 5 a + sha1F i b c d + e + sha1K i + w), a, rotl 30 b, c, d)

/-- SHA-1 compression of one 64-byte chunk. -/
def sha1Compress (h : Sha1State) (chunk : List Nat) : Sha1State :=
  let ws := (extendWords (bytesToWords chunk).reverse 64).reverse
  let (a, b, c, d, e) := ws.enum.foldl sha1Round (h.h0, h.h1, h.h2, h.h3, h.h4)
  ⟨w32 (h.h0 + a), w32 (h.h1 + b), w32 (h.h2 + c), w32 (h.h3 + d), w32 (h.h4 + e)⟩

/-- Fold the compression over `n` successive 64-byte chunks. -/
def sha1Chunks : Nat → List Nat → Sha1State → Sha1State
  | 0, _, h => h
  | n + 1, bytes, h => sha1Chunks n (bytes.drop 64) (sha1Compress h (bytes.take 64))

/-- The 8 big-endian bytes of a 64-bit length field. -/
def lenBytes8 (n : Nat) : List Nat :=
  [n / 72057594037927936 % 256, n / 281474976710656 % 256,
   n / 1099511627776 % 256, n / 4294967296 % 256,
   n / 16777216 % 256, n / 65536 % 256, n / 256 % 256, n % 256]

/-- SHA-1 padding: `0x80`, zeros to 56 mod 64, then the bit length. -/
def sha1Pad (msg : List Nat) : List Nat :=
  msg ++ 128 :: List.replicate ((119 - msg.length % 64) % 64) 0
    ++ lenBytes8 (8 * msg.length)

/-- SHA-1 of a byte list, as the five-word final state. -/
def sha1Digest (msg : List Nat) : Sha1State :=
  let padded := sha1Pad msg
  sha1Chunks (padded.length / 64) padded sha1Init

/-- The sixteen lowercase hexadecimal digit characters. -/
def hexDigitChars : List Char := "0123456789abcdef".toList

/-- Lowercase hexadecimal digit for a value below 16. -/
def hexDigit (n : Nat) : Char := hexDigitChars.getD n '0'

/-- The 8 hex characters of a 32-bit word, most significant first:
nibble `i` of the word is rendered at descending powers of 16. -/
def hexWord (n : Nat) : List Char :=
  [7, 6, 5, 4, 3, 2, 1, 0].map (fun i => hexDigit (n / 16 ^ i % 16))

/-- Lowercase hexadecimal rendering of a SHA-1 digest: 40 characters. -/
def sha1Hex (msg : List Nat) : String :=
  let st := sha1Digest msg
  String.mk (hexWord st.h0 ++ hexWord st.h1 ++ hexWord st.h2
    ++ hexWord st.h3 ++ hexWord st.h4)

/-- UTF-8 bytes of a string, as `code.as_bytes()` yields in the source. -/
def strBytes (s : String) : ByteStr :=
  s.toUTF8.data.toList.map UInt8.toNat

/-- `Script` from the source: lua source text plus its SHA-1 hash,
computed once at construction (`Script::new`). -/
structure Script where
  code : String
  hash : String
deriving DecidableEq

/-- `Script::new`: stores the code and the lowercase hex SHA-1 digest of
its bytes. -/
def Script.new (code : String) : Script :=
  ⟨code, sha1Hex (strBytes code)⟩

/-- `Script::get_hash`: returns the stored hash. -/
def Script.get_hash (s : Script) : String := s.hash

/-- `ScriptInvocation` from the source: a script reference plus the
ordered `args` and `keys` byte-string sequences. -/
structure ScriptInvocation where
  script : Script
  args : List ByteStr
  keys : List ByteStr
deriving DecidableEq

/-- `Script::key`: invocation pre-seeded with one key binding.  The
external `ToRedisArgs` serialization of the bound value is modelled by
its result: zero-or-more byte-strings. -/
def Script.key (s : Script) (key : List ByteStr) : ScriptInvocation :=
  ⟨s, [], key⟩

/-- `Script::arg`: invocation pre-seeded with one argument binding. -/
def Script.arg (s : Script) (arg : List ByteStr) : ScriptInvocation :=
  ⟨s, arg, []⟩

/-- `Script::prepare_invoke`: the empty invocation. -/
def Script.prepare_invoke (s : Script) : ScriptInvocation :=
  ⟨s, [], []⟩

/-- `ScriptInvocation::arg`: appends the serialized byte-strings of a
bound argument, in order. -/
def ScriptInvocation.arg (inv : ScriptInvocation) (arg : List ByteStr) :
    ScriptInvocation :=
  { inv with args := inv.args ++ arg }

/-- `ScriptInvocation::key`: appends the serialized byte-strings of a
bound key, in order. -/
def ScriptInvocation.key (inv : ScriptInvocation) (key : List ByteStr) :
    ScriptInvocation :=
  { inv with keys := inv.keys ++ key }

/-- The command-builder contract: a command name plus an ordered
sequence of positional byte-string arguments. -/
structure Cmd where
  name : String
  args : List ByteStr
deriving DecidableEq

/-- `cmd(name)`: a fresh command with no arguments. -/
def cmd (name : String) : Cmd := ⟨name, []⟩

/-- `Cmd::arg` with a value serializing to a single byte-string. -/
def Cmd.argBytes (c : Cmd) (b : ByteStr) : Cmd :=
  { c with args := c.args ++ [b] }

/-- `Cmd::arg` with a slice value: each element appended in order. -/
def Cmd.argMany (c : Cmd) (bs : List ByteStr) : Cmd :=
  { c with args := c.args ++ bs }

/-- Serialization of a `usize` argument: its decimal ASCII bytes. -/
def natToBytes (n : Nat) : ByteStr := strBytes (toString n)

/-- The EVALSHA command both executors build:
`cmd("EVALSHA").arg(hash bytes).arg(keys.len()).arg(keys).arg(args)`. -/
def evalCmd (inv : ScriptInvocation) : Cmd :=
  ((((cmd "EVALSHA").argBytes (strBytes inv.script.hash)).argBytes
    (natToBytes inv.keys.length)).argMany inv.keys).argMany inv.args

/-- The SCRIPT LOAD command both executors build:
`cmd("SCRIPT").arg("LOAD").arg(code bytes)`. -/
def loadCmd (inv : ScriptInvocation) : Cmd :=
  ((cmd "SCRIPT").argBytes (strBytes "LOAD")).argBytes
    (strBytes inv.script.code)

/-- The error-classification contract: a distinguishable
"script not cached" kind (`ErrorKind::NoScriptError`), distinct from all
other kinds. -/
inductive ErrorKind where
  | NoScriptError
  | other (code : Nat)
deriving DecidableEq

/-- A classified failure from the connection contract. -/
structure RedisError where
  kind : ErrorKind
  detail : Nat
deriving DecidableEq

/-- The connection contract: given the history of commands issued so far
on this connection and the current command, return a decoded value of the
caller-requested type or a classified failure. -/
abbrev Conn (V : Type) := List Cmd → Cmd → Except RedisError V

/-- `ScriptInvocation::invoke`, the blocking retry loop, with explicit
fuel for its structurally unbounded `loop`: issue EVALSHA; on success
return the value; on a `NoScriptError` failure issue SCRIPT LOAD
(propagating its failure) and repeat; on any other failure return it.
The second component of the result is the trace of issued commands;
`none` means the fuel ran out before the loop returned. -/
def invokeFuel {V : Type} (inv : ScriptInvocation) (conn : Conn V) :
    Nat → List Cmd → Option (Except RedisError V × List Cmd)
  | 0, _ => none
  | fuel + 1, hist =>
    match conn hist (evalCmd inv) with
    | .ok val => some (.ok val, hist ++ [evalCmd inv])
    | .error err =>
      if err.kind = ErrorKind.NoScriptError then
        match conn (hist ++ [evalCmd inv]) (loadCmd inv) with
        | .ok _ => invokeFuel inv conn fuel (hist ++ [evalCmd inv, loadCmd inv])
        | .error e2 => some (.error e2, hist ++ [evalCmd inv, loadCmd inv])
      else some (.error err, hist ++ [evalCmd inv])

/-- `ScriptStatus` from the source. -/
inductive ScriptStatus where
  | NotLoaded
  | Loading
  | Loaded
deriving DecidableEq

/-- `InvokeAsyncFuture`: the stored eval and load commands, the status,
and the command whose in-flight sub-future is awaited (`pending`). -/
structure InvokeAsyncFuture where
  eval_cmd : Cmd
  load_cmd : Cmd
  status : ScriptStatus
  pending : Cmd
deriving DecidableEq

/-- One iteration of the `loop` in `InvokeAsyncFuture::poll`, at the
point where the in-flight sub-future has resolved: on `Ok` in `Loading`
move to `Loaded` and re-issue the eval command, on `Ok` otherwise return
the value; on a `NoScriptError` failure in `NotLoaded` move to `Loading`
and issue the load command, on any other failure return it. -/
def pollStep {V : Type} (conn : Conn V) (hist : List Cmd)
    (f : InvokeAsyncFuture) : InvokeAsyncFuture ⊕ Except RedisError V :=
  match conn hist f.pending with
  | .ok val =>
      if f.status = ScriptStatus.Loading then
        Sum.inl { f with status := ScriptStatus.Loaded, pending := f.eval_cmd }
      else Sum.inr (Except.ok val)
  | .error err =>
      if err.kind = ErrorKind.NoScriptError ∧
          f.status = ScriptStatus.NotLoaded then
        Sum.inl { f with status := ScriptStatus.Loading, pending := f.load_cmd }
      else Sum.inr (Except.error err)

/-- Drive the poll loop to completion (every sub-future resolves under a
cooperative scheduler); fueled because each step consumes one resolved
sub-future.  Returns the result together with the trace of issued
commands. -/
def pollRun {V : Type} (conn : Conn V) :
    Nat → List Cmd → InvokeAsyncFuture →
      Option (Except RedisError V × List Cmd)
  | 0, _, _ => none
  | n + 1, hist, f =>
    match pollStep conn hist f with
    | Sum.inr r => some (r, hist ++ [f.pending])
    | Sum.inl f' => pollRun conn n (hist ++ [f.pending]) f'

/-- The initial future `invoke_async` constructs: status `NotLoaded`,
first in-flight sub-future the EVALSHA query. -/
def initAsync (inv : ScriptInvocation) : InvokeAsyncFuture :=
  ⟨evalCmd inv, loadCmd inv, ScriptStatus.NotLoaded, evalCmd inv⟩

/-- `ScriptInvocation::invoke_async`: build the eval and load commands,
start with the EVALSHA sub-future in state `NotLoaded`, and poll to
completion. -/
def invoke_async {V : Type} (inv : ScriptInvocation) (conn : Conn V)
    (fuel : Nat) : Option (Except RedisError V × List Cmd) :=
  pollRun conn fuel [] (initAsync inv)

/-- Number of commands with the given name in a trace. -/
def countCmd : List Cmd → String → Nat
  | [], _ => 0
  | c :: tr, s => (if c.name = s then 1 else 0) + countCmd tr s

/-- Numeric rank of a status along `NotLoaded → Loading → Loaded`. -/
def statusRank : ScriptStatus → Nat
  | ScriptStatus.NotLoaded => 0
  | ScriptStatus.Loading => 1
  | ScriptStatus.Loaded => 2

/-- A "script not cached" classified failure. -/
def wErr : RedisError := ⟨ErrorKind.NoScriptError, 0⟩

/-- A failure of some other classification. -/
def wErrOther : RedisError := ⟨ErrorKind.other 5, 11⟩

/-- A connection that answers "not cached" to every EVALSHA and success
to every other command: a server violating the load contract. -/
def alwaysMissConn (V : Type) (v : V) : Conn V := fun _ c =>
  if c.name = "SCRIPT" then Except.ok v else Except.error wErr

/-- A concrete script value for witnesses. -/
def wScript : Script := ⟨"return 1", "cafebabe"⟩

/-- A concrete invocation: one key byte-string, one arg byte-string. -/
def wInv : ScriptInvocation := ⟨wScript, [[97]], [[107]]⟩

/-- Stub failing the first command with "not cached", then succeeding. -/
def wConnMiss : Conn Nat := fun hist _ =>
  if hist = [] then Except.error wErr else Except.ok 7

/-- Stub succeeding every command. -/
def wConnOk : Conn Nat := fun _ _ => Except.ok 7

/-- Stub failing every command with a non-"not cached" classification. -/
def wConnOther : Conn Nat := fun _ _ => Except.error wErrOther

/-- Stub failing the first command with "not cached" and the rest with a
non-"not cached" classification. -/
def wConnLoadFail : Conn Nat := fun hist _ =>
  if hist = [] then Except.error wErr else Except.error wErrOther

/-- Stub failing the first command with "not cached", succeeding the
second, and failing the third with another classification. -/
def wConnRetryFail : Conn Nat := fun hist _ =>
  if hist = [] then Except.error wErr
  else if hist.length = 1 then Except.ok 7
  else Except.error wErrOther

/-- A wire-level connection: the history of issued commands and the
current command map to a raw, undecoded reply or a classified failure.
Decoding to a caller-requested type is applied per call, because the
source decodes different calls at different types: the blocking path
decodes the recovery LOAD reply at `()` while the non-blocking path
keeps every sub-future in the `T`-typed slot `future: RedisFuture<T>`. -/
abbrev WireConn (W : Type) := List Cmd → Cmd → Except RedisError W

/-- `ScriptInvocation::invoke` with the per-call decode made explicit:
EVALSHA replies are decoded at the caller's type `V`, while the recovery
LOAD reply is decoded at `()` and discarded
(`let _: () = cmd("SCRIPT")...query(con)?` in the source). -/
def invokeTyped {W V : Type} (inv : ScriptInvocation) (conn : WireConn W)
    (decV : W → Except RedisError V)
    (decUnit : W → Except RedisError Unit) :
    Nat → List Cmd → Option (Except RedisError V × List Cmd)
  | 0, _ => none
  | fuel + 1, hist =>
    match (conn hist (evalCmd inv)).bind decV with
    | .ok val => some (.ok val, hist ++ [evalCmd inv])
    | .error err =>
      if err.kind = ErrorKind.NoScriptError then
        match (conn (hist ++ [evalCmd inv]) (loadCmd inv)).bind decUnit with
        | .ok _ =>
            invokeTyped inv conn decV decUnit fuel
              (hist ++ [evalCmd inv, loadCmd inv])
        | .error e2 => some (.error e2, hist ++ [evalCmd inv, loadCmd inv])
      else some (.error err, hist ++ [evalCmd inv])

/-- One iteration of the poll loop with the decode made explicit: every
sub-future — the recovery LOAD included — lives in the `T`-typed slot of
`InvokeAsyncFuture`, so its reply is decoded at the caller's `V`. -/
def pollStepTyped {W V : Type} (conn : WireConn W)
    (decV : W → Except RedisError V) (hist : List Cmd)
    (f : InvokeAsyncFuture) : InvokeAsyncFuture ⊕ Except RedisError V :=
  match (conn hist f.pending).bind decV with
  | .ok val =>
      if f.status = ScriptStatus.Loading then
        Sum.inl { f with status := ScriptStatus.Loaded,
                         pending := f.eval_cmd }
      else Sum.inr (Except.ok val)
  | .error err =>
      if err.kind = ErrorKind.NoScriptError ∧
          f.status = ScriptStatus.NotLoaded then
        Sum.inl { f with status := ScriptStatus.Loading,
                         pending := f.load_cmd }
      else Sum.inr (Except.error err)

/-- Drive the typed poll loop to completion, fueled per resolved
sub-future, as `pollRun` does for the decode-merged model. -/
def pollRunTyped {W V : Type} (conn : WireConn W)
    (decV : W → Except RedisError V) :
    Nat → List Cmd → InvokeAsyncFuture →
      Option (Except RedisError V × List Cmd)
  | 0, _, _ => none
  | n + 1, hist, f =>
    match pollStepTyped conn decV hist f with
    | Sum.inr r => some (r, hist ++ [f.pending])
    | Sum.inl f' => pollRunTyped conn decV n (hist ++ [f.pending]) f'

/-- `ScriptInvocation::invoke_async` with the decode made explicit. -/
def invoke_asyncTyped {W V : Type} (inv : ScriptInvocation)
    (conn : WireConn W) (decV : W → Except RedisError V) (fuel : Nat) :
    Option (Except RedisError V × List Cmd) :=
  pollRunTyped conn decV fuel [] (initAsync inv)

/-- A raw wire reply: an integer reply or a bulk string reply. -/
inductive WireVal where
  | int (n : Nat)
  | bulk (s : String)
deriving DecidableEq

/-- The type-mismatch classified failure the bytes→value contract
raises on a shape mismatch; a kind distinct from `NoScriptError`. -/
def wErrType : RedisError := ⟨ErrorKind.other 1, 0⟩

/-- Wire stub for the load-decode divergence: the first EVALSHA answers
"not cached", the SCRIPT LOAD answers the script's sha as a bulk
string (as the server does), the retried EVALSHA answers the integer
reply 1. -/
def wWireMiss : WireConn WireVal := fun hist _ =>
  if hist = [] then Except.error wErr
  else if hist.length = 1 then Except.ok (WireVal.bulk "cafebabe")
  else Except.ok (WireVal.int 1)

/-- The bytes→value contract at an integer result type: an integer
reply converts, a non-numeric bulk string is a shape mismatch and fails
with the type-mismatch classification. -/
def decNat : WireVal → Except RedisError Nat
  | WireVal.int n => Except.ok n
  | WireVal.bulk _ => Except.error wErrType

/-- Modelled from the spec: the bytes→value contract at the unit type —
the `FromRedisValue` instance for `()` the blocking path's
`let _: () = ...` uses lives outside `src/`; the unit type has no shape
to mismatch, so every reply converts. -/
def decUnitOk : WireVal → Except RedisError Unit := fun _ => Except.ok ()

/-! ### Helper lemmas shared by the claim theorems -/

theorem evalCmd_name (inv : ScriptInvocation) :
    (evalCmd inv).name = "EVALSHA" := rfl

theorem loadCmd_name (inv : ScriptInvocation) :
    (loadCmd inv).name = "SCRIPT" := rfl

/-- More fuel never changes a blocking run that already returned. -/
theorem invokeFuel_mono {V : Type} (inv : ScriptInvocation) (conn : Conn V) :
    ∀ n m hist r, invokeFuel inv conn n hist = some r → n ≤ m →
      invokeFuel inv conn m hist = some r := by
  intro n
  induction n with
  | zero =>
    intro m hist r h _
    simp [invokeFuel] at h
  | succ k ih =>
    intro m hist r h hle
    obtain ⟨m', rfl⟩ : ∃ m', m = m' + 1 := ⟨m - 1, by omega⟩
    simp only [invokeFuel] at h ⊢
    cases he : conn hist (evalCmd inv) with
    | ok v =>
      simp only [he] at h ⊢
      exact h
    | error err =>
      simp only [he] at h ⊢
      by_cases hk : err.kind = ErrorKind.NoScriptError
      · simp only [if_pos hk] at h ⊢
        cases hl : conn (hist ++ [evalCmd inv]) (loadCmd inv) with
        | ok w =>
          simp only [hl] at h ⊢
          exact ih m' _ r h (by omega)
        | error e2 =>
          simp only [hl] at h ⊢
          exact h
      · simp only [if_neg hk] at h ⊢
        exact h

/-- Every command a blocking run adds to the trace is the invocation's
eval command or its load command. -/
theorem invokeFuel_trace {V : Type} (inv : ScriptInvocation) (conn : Conn V) :
    ∀ fuel hist r tr, invokeFuel inv conn fuel hist = some (r, tr) →
      ∀ c ∈ tr, c ∈ hist ∨ c = evalCmd inv ∨ c = loadCmd inv := by
  intro fuel
  induction fuel with
  | zero =>
    intro hist r tr h
    simp [invokeFuel] at h
  | succ k ih =>
    intro hist r tr h c hc
    simp only [invokeFuel] at h
    cases he : conn hist (evalCmd inv) with
    | ok v =>
      simp only [he, Option.some.injEq, Prod.mk.injEq] at h
      obtain ⟨-, rfl⟩ := h
      rcases List.mem_append.mp hc with hm | hm
      · exact Or.inl hm
      · simp only [List.mem_singleton] at hm
        exact Or.inr (Or.inl hm)
    | error err =>
      simp only [he] at h
      by_cases hk : err.kind = ErrorKind.NoScriptError
      · simp only [if_pos hk] at h
        cases hl : conn (hist ++ [evalCmd inv]) (loadCmd inv) with
        | ok w =>
          simp only [hl] at h
          rcases ih _ r tr h c hc with hm | hm
          · rcases List.mem_append.mp hm with hm2 | hm2
            · exact Or.inl hm2
            · rcases List.mem_cons.mp hm2 with h3 | h3
              · exact Or.inr (Or.inl h3)
              · simp only [List.mem_singleton] at h3
                exact Or.inr (Or.inr h3)
          · exact Or.inr hm
        | error e2 =>
          simp only [hl, Option.some.injEq, Prod.mk.injEq] at h
          obtain ⟨-, rfl⟩ := h
          rcases List.mem_append.mp hc with hm | hm
          · exact Or.inl hm
          · rcases List.mem_cons.mp hm with h3 | h3
            · exact Or.inr (Or.inl h3)
            · simp only [List.mem_singleton] at h3
              exact Or.inr (Or.inr h3)
      · simp only [if_neg hk, Option.some.injEq, Prod.mk.injEq] at h
        obtain ⟨-, rfl⟩ := h
        rcases List.mem_append.mp hc with hm | hm
        · exact Or.inl hm
        · simp only [List.mem_singleton] at hm
          exact Or.inr (Or.inl hm)

/-- `pollStep` in state `NotLoaded`: success returns, a `NoScriptError`
failure moves to `Loading` with the load command in flight, any other
failure returns. -/
theorem pollStep_notLoaded {V : Type} (conn : Conn V) (hist : List Cmd)
    (f : InvokeAsyncFuture) (hst : f.status = ScriptStatus.NotLoaded) :
    pollStep conn hist f =
      match conn hist f.pending with
      | .ok v => Sum.inr (Except.ok v)
      | .error e =>
        if e.kind = ErrorKind.NoScriptError then
          Sum.inl { f with status := ScriptStatus.Loading,
                           pending := f.load_cmd }
        else Sum.inr (Except.error e) := by
  cases hc : conn hist f.pending with
  | ok v => simp [pollStep, hc, hst]
  | error e => simp [pollStep, hc, hst]

/-- `pollStep` in state `Loading`: resolution of the load moves to
`Loaded` with the eval command re-issued, a load failure returns. -/
theorem pollStep_loading {V : Type} (conn : Conn V) (hist : List Cmd)
    (f : InvokeAsyncFuture) (hst : f.status = ScriptStatus.Loading) :
    pollStep conn hist f =
      match conn hist f.pending with
      | .ok _ => Sum.inl { f with status := ScriptStatus.Loaded,
                                  pending := f.eval_cmd }
      | .error e => Sum.inr (Except.error e) := by
  cases hc : conn hist f.pending with
  | ok v => simp [pollStep, hc, hst]
  | error e => simp [pollStep, hc, hst]

/-- `pollStep` in state `Loaded` always returns the resolution as-is. -/
theorem pollStep_loaded {V : Type} (conn : Conn V) (hist : List Cmd)
    (f : InvokeAsyncFuture) (hst : f.status = ScriptStatus.Loaded) :
    pollStep conn hist f =
      match conn hist f.pending with
      | .ok v => Sum.inr (Except.ok v)
      | .error e => Sum.inr (Except.error e) := by
  cases hc : conn hist f.pending with
  | ok v => simp [pollStep, hc, hst]
  | error e => simp [pollStep, hc, hst]

/-- Closed form of the non-blocking executor at fuel 3: it evaluates the
spec's state table on the oracle's three possible answers. -/
theorem invoke_async_eval {V : Type} (inv : ScriptInvocation)
    (conn : Conn V) :
    invoke_async inv conn 3 =
      match conn [] (evalCmd inv) with
      | .ok v => some (Except.ok v, [evalCmd inv])
      | .error e1 =>
        if e1.kind = ErrorKind.NoScriptError then
          match conn [evalCmd inv] (loadCmd inv) with
          | .ok _ =>
            match conn [evalCmd inv, loadCmd inv] (evalCmd inv) with
            | .ok v => some (Except.ok v, [evalCmd inv, loadCmd inv, evalCmd inv])
            | .error e3 =>
              some (Except.error e3, [evalCmd inv, loadCmd inv, evalCmd inv])
          | .error e2 => some (Except.error e2, [evalCmd inv, loadCmd inv])
        else some (Except.error e1, [evalCmd inv]) := by
  cases h1 : conn [] (evalCmd inv) with
  | ok v => simp [invoke_async, pollRun, pollStep, initAsync, h1]
  | error e1 =>
    by_cases hk1 : e1.kind = ErrorKind.NoScriptError
    · cases h2 : conn [evalCmd inv] (loadCmd inv) with
      | ok w =>
        cases h3 : conn [evalCmd inv, loadCmd inv] (evalCmd inv) with
        | ok v =>
          simp [invoke_async, pollRun, pollStep, initAsync, h1, h2, h3, hk1]
        | error e3 =>
          simp [invoke_async, pollRun, pollStep, initAsync, h1, h2, h3, hk1]
      | error e2 =>
        simp [invoke_async, pollRun, pollStep, initAsync, h1, h2, hk1]
    · simp [invoke_async, pollRun, pollStep, initAsync, h1, hk1]

/-- More fuel never changes a non-blocking run that already returned. -/
theorem pollRun_mono {V : Type} (conn : Conn V) :
    ∀ n m hist f r, pollRun conn n hist f = some r → n ≤ m →
      pollRun conn m hist f = some r := by
  intro n
  induction n with
  | zero =>
    intro m hist f r h _
    simp [pollRun] at h
  | succ k ih =>
    intro m hist f r h hle
    obtain ⟨m', rfl⟩ : ∃ m', m = m' + 1 := ⟨m - 1, by omega⟩
    simp only [pollRun] at h ⊢
    cases hs : pollStep conn hist f with
    | inr out =>
      simp only [hs] at h ⊢
      exact h
    | inl f' =>
      simp only [hs] at h ⊢
      exact ih m' _ f' r h (by omega)

/-- The non-blocking executor at fuel 3 always returns. -/
theorem invoke_async_complete {V : Type} (inv : ScriptInvocation)
    (conn : Conn V) :
    ∃ p, invoke_async inv conn 3 = some p := by
  rw [invoke_async_eval]
  repeat' split
  all_goals exact ⟨_, rfl⟩

/-- Any returning non-blocking run agrees with the fuel-3 run. -/
theorem invoke_async_fuel {V : Type} (inv : ScriptInvocation)
    (conn : Conn V) (fuel : Nat) (p : Except RedisError V × List Cmd)
    (h : invoke_async inv conn fuel = some p) :
    invoke_async inv conn 3 = some p := by
  obtain ⟨q, hq⟩ := invoke_async_complete inv conn
  have h1 := pollRun_mono conn fuel (max fuel 3) [] (initAsync inv) p h
    (Nat.le_max_left _ _)
  have h2 := pollRun_mono conn 3 (max fuel 3) [] (initAsync inv) q hq
    (Nat.le_max_right _ _)
  rw [hq]
  exact congrArg some (Option.some.inj (h1.symm.trans h2)).symm

/-- A completed non-blocking run from the initial state issued one of
exactly three command traces. -/
theorem pollRun_init_shape {V : Type} (inv : ScriptInvocation)
    (conn : Conn V) (fuel : Nat) (r : Except RedisError V) (tr : List Cmd)
    (h : pollRun conn fuel [] (initAsync inv) = some (r, tr)) :
    tr = [evalCmd inv] ∨ tr = [evalCmd inv, loadCmd inv] ∨
      tr = [evalCmd inv, loadCmd inv, evalCmd inv] := by
  have h3 : invoke_async inv conn 3 = some (r, tr) :=
    invoke_async_fuel inv conn fuel (r, tr) h
  rw [invoke_async_eval] at h3
  repeat' split at h3
  all_goals
    simp only [Option.some.injEq, Prod.mk.injEq] at h3
  all_goals obtain ⟨-, rfl⟩ := h3
  all_goals simp

/-- The blocking loop runs out of any fuel bound against a server that
keeps reporting a cache miss after every successful load. -/
theorem alwaysMissConn_diverges {V : Type} (inv : ScriptInvocation) (v : V) :
    ∀ fuel hist, invokeFuel inv (alwaysMissConn V v) fuel hist = none := by
  intro fuel
  induction fuel with
  | zero => intro hist; rfl
  | succ k ih =>
    intro hist
    simp [invokeFuel, alwaysMissConn, evalCmd_name, loadCmd_name, wErr, ih]

/-! ### Claim theorems -/

/-- C1: against a connection that fails the first EVALSHA with the
"script not cached" classification and succeeds the subsequent LOAD and
EVALSHA, both executors issue exactly the trace
`[EVALSHA, SCRIPT LOAD, EVALSHA]` — one SCRIPT LOAD, two EVALSHA — and
return the value of the second EVALSHA. -/
theorem c1_retry_on_miss {V : Type} (inv : ScriptInvocation) (conn : Conn V)
    (e : RedisError) (w v : V)
    (h1 : conn [] (evalCmd inv) = Except.error e)
    (h2 : e.kind = ErrorKind.NoScriptError)
    (h3 : conn [evalCmd inv] (loadCmd inv) = Except.ok w)
    (h4 : conn [evalCmd inv, loadCmd inv] (evalCmd inv) = Except.ok v) :
    (∀ fuel, 2 ≤ fuel → invokeFuel inv conn fuel [] =
        some (Except.ok v, [evalCmd inv, loadCmd inv, evalCmd inv])) ∧
    invoke_async inv conn 3 =
      some (Except.ok v, [evalCmd inv, loadCmd inv, evalCmd inv]) ∧
    countCmd [evalCmd inv, loadCmd inv, evalCmd inv] "EVALSHA" = 2 ∧
    countCmd [evalCmd inv, loadCmd inv, evalCmd inv] "SCRIPT" = 1 := by
  refine ⟨fun fuel hf => ?_, ?_, ?_, ?_⟩
  · obtain ⟨k, rfl⟩ : ∃ k, fuel = k + 1 + 1 := ⟨fuel - 2, by omega⟩
    simp [invokeFuel, h1, h2, h3, h4]
  · simp [invoke_async_eval, h1, h2, h3, h4]
  · simp [countCmd, evalCmd_name, loadCmd_name]
  · simp [countCmd, evalCmd_name, loadCmd_name]

/-- Witness for C1 at the concrete miss-once stub. -/
theorem c1_retry_on_miss_witness :
    invokeFuel wInv wConnMiss 2 [] =
        some (Except.ok 7, [evalCmd wInv, loadCmd wInv, evalCmd wInv]) ∧
    invoke_async wInv wConnMiss 3 =
        some (Except.ok 7, [evalCmd wInv, loadCmd wInv, evalCmd wInv]) :=
  ⟨(c1_retry_on_miss wInv wConnMiss wErr 7 7 rfl rfl rfl rfl).1 2 (by omega),
   (c1_retry_on_miss wInv wConnMiss wErr 7 7 rfl rfl rfl rfl).2.1⟩

/-- C2: the EVALSHA command both executors build carries exactly
`[content hash, number of keys, keys…, args…]`, in binding order, with
nothing truncated or reordered. -/
theorem c2_positional_layout (inv : ScriptInvocation) :
    (evalCmd inv).name = "EVALSHA" ∧
    (evalCmd inv).args =
      strBytes inv.script.hash :: natToBytes inv.keys.length ::
        (inv.keys ++ inv.args) := by
  refine ⟨rfl, ?_⟩
  simp [evalCmd, cmd, Cmd.argBytes, Cmd.argMany]

/-- C6: when the first EVALSHA succeeds, both executors issue only that
one command — no SCRIPT LOAD — and return the decoded value directly. -/
theorem c6_no_spurious_load {V : Type} (inv : ScriptInvocation)
    (conn : Conn V) (v : V)
    (h : conn [] (evalCmd inv) = Except.ok v) :
    (∀ fuel, 1 ≤ fuel →
      invokeFuel inv conn fuel [] = some (Except.ok v, [evalCmd inv])) ∧
    invoke_async inv conn 3 = some (Except.ok v, [evalCmd inv]) ∧
    countCmd [evalCmd inv] "SCRIPT" = 0 := by
  refine ⟨fun fuel hf => ?_, ?_, ?_⟩
  · obtain ⟨k, rfl⟩ : ∃ k, fuel = k + 1 := ⟨fuel - 1, by omega⟩
    simp [invokeFuel, h]
  · simp [invoke_async_eval, h]
  · simp [countCmd, evalCmd_name]

/-- Witness for C6 at the concrete always-succeed stub. -/
theorem c6_no_spurious_load_witness :
    invokeFuel wInv wConnOk 1 [] = some (Except.ok 7, [evalCmd wInv]) ∧
    invoke_async wInv wConnOk 3 = some (Except.ok 7, [evalCmd wInv]) :=
  ⟨(c6_no_spurious_load wInv wConnOk 7 rfl).1 1 (by omega),
   (c6_no_spurious_load wInv wConnOk 7 rfl).2.1⟩

/-- C5: failures other than a "not cached" EVALSHA failure pass through
unchanged and unretried, in both executors: a non-"not cached" EVALSHA
failure issues no LOAD and is returned as-is, and a failing recovery
LOAD is returned without a further EVALSHA attempt. -/
theorem c5_error_passthrough {V : Type} (inv : ScriptInvocation)
    (conn : Conn V) :
    (∀ e, conn [] (evalCmd inv) = Except.error e →
      e.kind ≠ ErrorKind.NoScriptError →
      (∀ fuel, 1 ≤ fuel →
        invokeFuel inv conn fuel [] =
          some (Except.error e, [evalCmd inv])) ∧
      invoke_async inv conn 3 = some (Except.error e, [evalCmd inv]) ∧
      countCmd [evalCmd inv] "SCRIPT" = 0) ∧
    (∀ e1 e2, conn [] (evalCmd inv) = Except.error e1 →
      e1.kind = ErrorKind.NoScriptError →
      conn [evalCmd inv] (loadCmd inv) = Except.error e2 →
      (∀ fuel, 1 ≤ fuel → invokeFuel inv conn fuel [] =
          some (Except.error e2, [evalCmd inv, loadCmd inv])) ∧
      invoke_async inv conn 3 =
        some (Except.error e2, [evalCmd inv, loadCmd inv]) ∧
      countCmd [evalCmd inv, loadCmd inv] "EVALSHA" = 1) ∧
    (∀ e1 w e3, conn [] (evalCmd inv) = Except.error e1 →
      e1.kind = ErrorKind.NoScriptError →
      conn [evalCmd inv] (loadCmd inv) = Except.ok w →
      conn [evalCmd inv, loadCmd inv] (evalCmd inv) = Except.error e3 →
      e3.kind ≠ ErrorKind.NoScriptError →
      (∀ fuel, 2 ≤ fuel → invokeFuel inv conn fuel [] =
          some (Except.error e3, [evalCmd inv, loadCmd inv, evalCmd inv])) ∧
      invoke_async inv conn 3 =
        some (Except.error e3, [evalCmd inv, loadCmd inv, evalCmd inv]) ∧
      countCmd [evalCmd inv, loadCmd inv, evalCmd inv] "SCRIPT" = 1) := by
  refine ⟨?_, ?_, ?_⟩
  · intro e h1 hk
    refine ⟨fun fuel hf => ?_, ?_, ?_⟩
    · obtain ⟨k, rfl⟩ : ∃ k, fuel = k + 1 := ⟨fuel - 1, by omega⟩
      simp [invokeFuel, h1, hk]
    · simp [invoke_async_eval, h1, hk]
    · simp [countCmd, evalCmd_name]
  · intro e1 e2 h1 hk h2
    refine ⟨fun fuel hf => ?_, ?_, ?_⟩
    · obtain ⟨k, rfl⟩ : ∃ k, fuel = k + 1 := ⟨fuel - 1, by omega⟩
      simp [invokeFuel, h1, hk, h2]
    · simp [invoke_async_eval, h1, hk, h2]
    · simp [countCmd, evalCmd_name, loadCmd_name]
  · intro e1 w e3 h1 hk h2 h3 hk3
    refine ⟨fun fuel hf => ?_, ?_, ?_⟩
    · obtain ⟨k, rfl⟩ : ∃ k, fuel = k + 1 + 1 := ⟨fuel - 2, by omega⟩
      simp [invokeFuel, h1, hk, h2, h3, hk3]
    · simp [invoke_async_eval, h1, hk, h2, h3]
    · simp [countCmd, evalCmd_name, loadCmd_name]

/-- Witness for C5: a non-recoverable EVALSHA failure at the
always-other-error stub, a failing LOAD at the load-failure stub, and a
non-"not cached" retry failure at the retry-failure stub. -/
theorem c5_error_passthrough_witness :
    invokeFuel wInv wConnOther 1 [] =
        some (Except.error wErrOther, [evalCmd wInv]) ∧
    invoke_async wInv wConnLoadFail 3 =
        some (Except.error wErrOther, [evalCmd wInv, loadCmd wInv]) ∧
    invoke_async wInv wConnRetryFail 3 =
        some (Except.error wErrOther,
          [evalCmd wInv, loadCmd wInv, evalCmd wInv]) :=
  ⟨((c5_error_passthrough wInv wConnOther).1 wErrOther rfl
      (by decide)).1 1 (by omega),
   ((c5_error_passthrough wInv wConnLoadFail).2.1 wErr wErrOther rfl rfl
      rfl).2.1,
   ((c5_error_passthrough wInv wConnRetryFail).2.2 wErr 7 wErrOther rfl rfl
      rfl rfl (by decide)).2.1⟩

/-- C4: the non-blocking executor issues at most one SCRIPT LOAD per
invocation; when the post-load EVALSHA fails with "not cached" again,
that second failure is returned as the error and no second LOAD is
started. -/
theorem c4_bounded_reload {V : Type} (inv : ScriptInvocation)
    (conn : Conn V) (e1 e2 : RedisError) (w : V)
    (h1 : conn [] (evalCmd inv) = Except.error e1)
    (h2 : e1.kind = ErrorKind.NoScriptError)
    (h3 : conn [evalCmd inv] (loadCmd inv) = Except.ok w)
    (h4 : conn [evalCmd inv, loadCmd inv] (evalCmd inv) = Except.error e2)
    (h5 : e2.kind = ErrorKind.NoScriptError) :
    invoke_async inv conn 3 =
      some (Except.error e2, [evalCmd inv, loadCmd inv, evalCmd inv]) ∧
    countCmd [evalCmd inv, loadCmd inv, evalCmd inv] "SCRIPT" = 1 ∧
    (∀ (conn' : Conn V) fuel r tr,
      pollRun conn' fuel [] (initAsync inv) = some (r, tr) →
      countCmd tr "SCRIPT" ≤ 1) := by
  refine ⟨?_, ?_, ?_⟩
  · simp [invoke_async_eval, h1, h2, h3, h4]
  · simp [countCmd, evalCmd_name, loadCmd_name]
  · intro conn' fuel r tr htr
    rcases pollRun_init_shape inv conn' fuel r tr htr with rfl | rfl | rfl <;>
      simp [countCmd, evalCmd_name, loadCmd_name]

/-- Witness for C4 at the server that always misses on EVALSHA. -/
theorem c4_bounded_reload_witness :
    invoke_async wInv (alwaysMissConn Nat 7) 3 =
      some (Except.error wErr, [evalCmd wInv, loadCmd wInv, evalCmd wInv]) ∧
    countCmd [evalCmd wInv, loadCmd wInv, evalCmd wInv] "SCRIPT" = 1 :=
  ⟨(c4_bounded_reload wInv (alwaysMissConn Nat 7) wErr wErr 7
      rfl rfl rfl rfl rfl).1,
   (c4_bounded_reload wInv (alwaysMissConn Nat 7) wErr wErr 7
      rfl rfl rfl rfl rfl).2.1⟩

/-- C3: the equivalence claim fails on the code.  The blocking executor
decodes the recovery LOAD reply at `()` and discards it, but the
non-blocking executor keeps the LOAD sub-future in the caller-typed
slot, so its reply is decoded at the caller's result type.  With one
"not cached" miss and a result type whose decoder rejects the LOAD
reply (the sha bulk string), the blocking executor retries and returns
the second EVALSHA's value after `[EVALSHA, SCRIPT, EVALSHA]`, while
the non-blocking executor returns the type-mismatch error after
`[EVALSHA, SCRIPT]`: different results and different command
sequences. -/
theorem c3_load_decode_divergence :
    invokeTyped wInv wWireMiss decNat decUnitOk 2 [] =
      some (Except.ok 1, [evalCmd wInv, loadCmd wInv, evalCmd wInv]) ∧
    invoke_asyncTyped wInv wWireMiss decNat 3 =
      some (Except.error wErrType, [evalCmd wInv, loadCmd wInv]) ∧
    invokeTyped wInv wWireMiss decNat decUnitOk 2 [] ≠
      invoke_asyncTyped wInv wWireMiss decNat 3 := by
  have h1 : invokeTyped wInv wWireMiss decNat decUnitOk 2 [] =
      some (Except.ok 1, [evalCmd wInv, loadCmd wInv, evalCmd wInv]) := rfl
  have h2 : invoke_asyncTyped wInv wWireMiss decNat 3 =
      some (Except.error wErrType, [evalCmd wInv, loadCmd wInv]) := rfl
  refine ⟨h1, h2, ?_⟩
  rw [h1, h2]
  simp

/-- C8: a poll step that continues (rather than returning) only ever
moves the status strictly forward, and the only transitions are
NotLoaded→Loading on a "not cached" failure of the in-flight command
(placing the load command in flight) and Loading→Loaded on successful
resolution (re-issuing the eval command); hence no state is revisited. -/
theorem c8_status_monotone {V : Type} (conn : Conn V) (hist : List Cmd)
    (f f' : InvokeAsyncFuture)
    (h : pollStep conn hist f = Sum.inl f') :
    statusRank f.status < statusRank f'.status ∧
    ((f.status = ScriptStatus.NotLoaded ∧
      f'.status = ScriptStatus.Loading ∧ f'.pending = f.load_cmd ∧
      ∃ e, conn hist f.pending = Except.error e ∧
        e.kind = ErrorKind.NoScriptError) ∨
     (f.status = ScriptStatus.Loading ∧
      f'.status = ScriptStatus.Loaded ∧ f'.pending = f.eval_cmd ∧
      ∃ v, conn hist f.pending = Except.ok v)) := by
  unfold pollStep at h
  cases hc : conn hist f.pending with
  | ok v =>
    simp only [hc] at h
    split at h
    · rename_i hst
      obtain rfl := Sum.inl.inj h
      exact ⟨by simp [statusRank, hst], Or.inr ⟨hst, rfl, rfl, v, rfl⟩⟩
    · exact absurd h (by simp)
  | error e =>
    simp only [hc] at h
    split at h
    · rename_i hcond
      obtain rfl := Sum.inl.inj h
      exact ⟨by simp [statusRank, hcond.2],
        Or.inl ⟨hcond.2, rfl, rfl, e, rfl, hcond.1⟩⟩
    · exact absurd h (by simp)

/-- Witness for C8: the first step of the miss-once stub run moves the
initial state NotLoaded→Loading. -/
theorem c8_status_monotone_witness :
    statusRank (initAsync wInv).status <
      statusRank (⟨evalCmd wInv, loadCmd wInv, ScriptStatus.Loading,
        loadCmd wInv⟩ : InvokeAsyncFuture).status :=
  (c8_status_monotone wConnMiss [] (initAsync wInv)
    ⟨evalCmd wInv, loadCmd wInv, ScriptStatus.Loading, loadCmd wInv⟩ rfl).1

/-- C9: under the server contract — an EVALSHA issued right after a
successful SCRIPT LOAD of the same script never fails "not cached" —
the blocking loop returns within one reload, issuing at most two EVALSHA
commands and at most one SCRIPT LOAD; without that precondition there is
a connection on which the loop exhausts every fuel bound. -/
theorem c9_blocking_termination {V : Type} (inv : ScriptInvocation)
    (conn : Conn V)
    (hServer : ∀ hist w, conn hist (loadCmd inv) = Except.ok w →
      ∀ e, conn (hist ++ [loadCmd inv]) (evalCmd inv) = Except.error e →
        e.kind ≠ ErrorKind.NoScriptError) :
    (∀ fuel, 2 ≤ fuel → ∃ r tr,
      invokeFuel inv conn fuel [] = some (r, tr) ∧
      countCmd tr "EVALSHA" ≤ 2 ∧ countCmd tr "SCRIPT" ≤ 1) ∧
    (∀ v : V, ∃ conn' : Conn V,
      ∀ fuel, invokeFuel inv conn' fuel [] = none) := by
  constructor
  · intro fuel hf
    obtain ⟨k, rfl⟩ : ∃ k, fuel = k + 1 + 1 := ⟨fuel - 2, by omega⟩
    cases h1 : conn [] (evalCmd inv) with
    | ok v =>
      exact ⟨Except.ok v, [evalCmd inv], by simp [invokeFuel, h1],
        by simp [countCmd, evalCmd_name], by simp [countCmd, evalCmd_name]⟩
    | error e1 =>
      by_cases hk1 : e1.kind = ErrorKind.NoScriptError
      · cases h2 : conn [evalCmd inv] (loadCmd inv) with
        | ok w =>
          cases h3 : conn [evalCmd inv, loadCmd inv] (evalCmd inv) with
          | ok v =>
            exact ⟨Except.ok v, [evalCmd inv, loadCmd inv, evalCmd inv],
              by simp [invokeFuel, h1, hk1, h2, h3],
              by simp [countCmd, evalCmd_name, loadCmd_name],
              by simp [countCmd, evalCmd_name, loadCmd_name]⟩
          | error e3 =>
            have hne : e3.kind ≠ ErrorKind.NoScriptError :=
              hServer [evalCmd inv] w h2 e3 h3
            exact ⟨Except.error e3, [evalCmd inv, loadCmd inv, evalCmd inv],
              by simp [invokeFuel, h1, hk1, h2, h3, hne],
              by simp [countCmd, evalCmd_name, loadCmd_name],
              by simp [countCmd, evalCmd_name, loadCmd_name]⟩
        | error e2 =>
          exact ⟨Except.error e2, [evalCmd inv, loadCmd inv],
            by simp [invokeFuel, h1, hk1, h2],
            by simp [countCmd, evalCmd_name, loadCmd_name],
            by simp [countCmd, evalCmd_name, loadCmd_name]⟩
      · exact ⟨Except.error e1, [evalCmd inv],
          by simp [invokeFuel, h1, hk1],
          by simp [countCmd, evalCmd_name], by simp [countCmd, evalCmd_name]⟩
  · intro v
    exact ⟨alwaysMissConn V v,
      fun fuel => alwaysMissConn_diverges inv v fuel []⟩

/-- Witness for C9 at the always-succeed stub and fuel 2. -/
theorem c9_blocking_termination_witness :
    (∃ r tr, invokeFuel wInv wConnOk 2 [] = some (r, tr) ∧
      countCmd tr "EVALSHA" ≤ 2 ∧ countCmd tr "SCRIPT" ≤ 1) ∧
    (∃ conn' : Conn Nat, ∀ fuel, invokeFuel wInv conn' fuel [] = none) :=
  ⟨(c9_blocking_termination wInv wConnOk
      (fun hist w _ e he => by simp [wConnOk] at he)).1 2 (by omega),
   (c9_blocking_termination wInv wConnOk
      (fun hist w _ e he => by simp [wConnOk] at he)).2 0⟩

/-- C10: executing an invocation never changes which commands it builds:
every command either executor issues is the invocation's eval command or
its load command — both pure functions of the invocation value — so the
EVALSHA commands of any two executions are byte-identical. -/
theorem c10_invocation_immutable {V : Type} (inv : ScriptInvocation) :
    (∀ (conn : Conn V) fuel r tr,
      invokeFuel inv conn fuel [] = some (r, tr) →
      ∀ c ∈ tr, c = evalCmd inv ∨ c = loadCmd inv) ∧
    (∀ (conn : Conn V) fuel r tr,
      invoke_async inv conn fuel = some (r, tr) →
      ∀ c ∈ tr, c = evalCmd inv ∨ c = loadCmd inv) ∧
    (∀ (conn conn' : Conn V) fuel fuel' r r' tr tr',
      invokeFuel inv conn fuel [] = some (r, tr) →
      invoke_async inv conn' fuel' = some (r', tr') →
      ∀ c ∈ tr, ∀ c' ∈ tr', c.name = "EVALSHA" → c'.name = "EVALSHA" →
        c = c') := by
  have hb : ∀ (conn : Conn V) fuel r tr,
      invokeFuel inv conn fuel [] = some (r, tr) →
      ∀ c ∈ tr, c = evalCmd inv ∨ c = loadCmd inv := by
    intro conn fuel r tr h c hc
    rcases invokeFuel_trace inv conn fuel [] r tr h c hc with hm | hm
    · simp at hm
    · exact hm
  have ha : ∀ (conn : Conn V) fuel r tr,
      invoke_async inv conn fuel = some (r, tr) →
      ∀ c ∈ tr, c = evalCmd inv ∨ c = loadCmd inv := by
    intro conn fuel r tr h c hc
    rcases pollRun_init_shape inv conn fuel r tr h with rfl | rfl | rfl <;>
      simp only [List.mem_cons, List.not_mem_nil, or_false] at hc <;>
      tauto
  refine ⟨hb, ha, ?_⟩
  intro conn conn' fuel fuel' r r' tr tr' h h' c hc c' hc' hn hn'
  rcases hb conn fuel r tr h c hc with rfl | rfl
  · rcases ha conn' fuel' r' tr' h' c' hc' with rfl | rfl
    · rfl
    · rw [loadCmd_name] at hn'
      exact absurd hn' (by decide)
  · rw [loadCmd_name] at hn
    exact absurd hn (by decide)

/-- Witness for C10: two concrete executions of the same invocation
yield the same EVALSHA command. -/
theorem c10_invocation_immutable_witness :
    evalCmd wInv = evalCmd wInv ∧
    (evalCmd wInv = evalCmd wInv ∨ evalCmd wInv = loadCmd wInv) :=
  ⟨(c10_invocation_immutable (V := Nat) wInv).2.2 wConnOk wConnOk 1 3
      (Except.ok 7) (Except.ok 7) [evalCmd wInv] [evalCmd wInv] rfl rfl
      (evalCmd wInv) (by simp) (evalCmd wInv) (by simp) rfl rfl,
   (c10_invocation_immutable (V := Nat) wInv).1 wConnOk 1 (Except.ok 7)
      [evalCmd wInv] rfl (evalCmd wInv) (by simp)⟩

/-- Every `hexDigit` output is one of the sixteen lowercase hex
characters. -/
theorem hexDigit_mem (n : Nat) : hexDigit n ∈ hexDigitChars := by
  by_cases h : n < 16
  · interval_cases n <;> decide
  · unfold hexDigit
    rw [List.getD_eq_getElem?_getD, List.getElem?_eq_none (by
      show hexDigitChars.length ≤ n
      have h16 : hexDigitChars.length = 16 := rfl
      omega)]
    decide

/-- Every character of a `hexWord` is a lowercase hex character. -/
theorem hexWord_mem (n : Nat) : ∀ ch ∈ hexWord n, ch ∈ hexDigitChars := by
  intro ch hch
  simp only [hexWord, List.mem_map] at hch
  obtain ⟨i, -, rfl⟩ := hch
  exact hexDigit_mem _

/-- The hex rendering of a SHA-1 digest always has 40 characters. -/
theorem sha1Hex_length (msg : ByteStr) : (sha1Hex msg).length = 40 := by
  simp [sha1Hex, hexWord]

/-- Every character of the hex rendering is a lowercase hex character. -/
theorem sha1Hex_chars (msg : ByteStr) :
    ∀ ch ∈ (sha1Hex msg).data, ch ∈ hexDigitChars := by
  intro ch hch
  simp only [sha1Hex, List.mem_append] at hch
  rcases hch with ((((h | h) | h) | h) | h) <;> exact hexWord_mem _ _ h

/-- Known-answer check: the model's SHA-1 of the empty string is the
standard digest, so the embedded hash is real SHA-1. -/
theorem sha1Hex_empty :
    sha1Hex (strBytes "") = "da39a3ee5e6b4b0d3255bfef95601890afd80709" := by
  decide

/-- Known-answer check: the model's SHA-1 of "abc" is the standard
digest. -/
theorem sha1Hex_abc :
    sha1Hex (strBytes "abc") =
      "a9993e364706816aba3e25717850c26c9cd0d89d" := by
  decide

/-- C7: `Script::new` computes the content hash as the lowercase
40-character hexadecimal SHA-1 digest of the source text's bytes, with
no failure mode; `get_hash` returns exactly that string; identical
source texts always yield identical hashes. -/
theorem c7_hash_construction (code : String) :
    (Script.new code).hash = sha1Hex (strBytes code) ∧
    (Script.new code).get_hash = (Script.new code).hash ∧
    ((Script.new code).hash).length = 40 ∧
    (∀ ch ∈ ((Script.new code).hash).data, ch ∈ hexDigitChars) ∧
    (∀ code' : String, code = code' →
      (Script.new code).hash = (Script.new code').hash) := by
  refine ⟨rfl, rfl, sha1Hex_length _, sha1Hex_chars _, ?_⟩
  intro code' h
  rw [h]

/-- Witness for C7 at the concrete source text "abc". -/
theorem c7_hash_construction_witness :
    (Script.new "abc").hash = sha1Hex (strBytes "abc") ∧
    ((Script.new "abc").hash).length = 40 ∧
    'a' ∈ hexDigitChars ∧
    (Script.new "abc").hash = (Script.new "abc").hash :=
  ⟨(c7_hash_construction "abc").1,
   (c7_hash_construction "abc").2.2.1,
   (c7_hash_construction "abc").2.2.2.1 'a' (by decide),
   (c7_hash_construction "abc").2.2.2.2 "abc" rfl⟩
